import Mathlib

/-!
Shallow embedding of the service-worker cache proxy found in
`validate-performance.js` (service-worker section): strategy routing
(`getCacheStrategy`), the five strategy executors, the install/activate
lifecycle, the periodic expiry sweep (`cleanupCaches`) and the push
notification hooks.

Modelling conventions:
* A `Response` carries the HTTP status, body, and the value of its `date`
  header (as a millisecond timestamp, `none` when the header is absent or
  unparsable). `Response.ok` mirrors the JS `Response.ok` getter
  (status in 200..299).
* A `Cache` is an association list from request URL to stored response;
  `cachePut` overwrites in place (the Cache API `put` semantics).
* A `CacheStore` is the global `caches` object: named caches in creation
  order. `cachesMatch` mirrors `caches.match`, which searches every cache
  in creation order; `openCache` mirrors `caches.open`, which creates an
  empty cache when the name is absent.
* The outcome of a network `fetch` is an explicit input of type
  `Option Response`: `none` models the fetch promise rejecting, `some r`
  models it resolving with `r` (possibly a non-2xx response).
* Each executor returns `(Option Response) × CacheStore`: the value the
  async handler resolves with (`none` models resolving with the JS value
  `null`, which is not a `Response`) together with the updated store.
-/

namespace SW

structure Response where
  status : Nat
  body : String
  date : Option Int
deriving DecidableEq

def Response.ok (r : Response) : Bool := decide (200 ≤ r.status ∧ r.status ≤ 299)

/-- `new Response('Offline', { status: 503 })` -/
def offlineResponse : Response := { status := 503, body := "Offline", date := none }

/-- `new Response('Not found in cache', { status: 404 })` -/
def notFoundResponse : Response := { status := 404, body := "Not found in cache", date := none }

abbrev Cache := List (String × Response)

abbrev CacheStore := List (String × Cache)

def CACHE_NAME : String := "mcp-docs-v1"

def STATIC_CACHE : String := "mcp-static-v1"

def DYNAMIC_CACHE : String := "mcp-dynamic-v1"

def STATIC_ASSETS : List String :=
  ["/",
   "/index.html",
   "/performance-monitor.js",
   "https://cdn.tailwindcss.com",
   "https://fonts.googleapis.com/css2?family=Crimson+Text:ital,wght@0,400;0,600;1,400&family=Inter:wght@300;400;500;600;700&display=swap",
   "https://cdnjs.cloudflare.com/ajax/libs/font-awesome/6.4.0/css/all.min.css",
   "https://cdn.jsdelivr.net/npm/mermaid@10.6.1/dist/mermaid.min.js",
   "https://cdnjs.cloudflare.com/ajax/libs/hammer.js/2.0.8/hammer.min.js"]

/-- `cache.match(request)`: first entry stored under the request key. -/
def cacheMatch : Cache → String → Option Response
  | [], _ => none
  | (k, v) :: rest, key => if k = key then some v else cacheMatch rest key

/-- `cache.put(request, response)`: overwrite the entry for the key, or append it. -/
def cachePut : Cache → String → Response → Cache
  | [], key, r => [(key, r)]
  | (k, v) :: rest, key, r =>
      if k = key then (key, r) :: rest else (k, v) :: cachePut rest key r

/-- Look a named cache up in the store (first occurrence). -/
def findCache : CacheStore → String → Option Cache
  | [], _ => none
  | (n, c) :: rest, name => if n = name then some c else findCache rest name

/-- Whether a cache of this name exists (`caches.keys().includes(name)`). -/
def hasCache (store : CacheStore) (name : String) : Bool :=
  (findCache store name).isSome

/-- `caches.open(name)`: create an empty cache at the end when absent. -/
def openCache : CacheStore → String → CacheStore
  | [], name => [(name, [])]
  | (n, c) :: rest, name =>
      if n = name then (n, c) :: rest else (n, c) :: openCache rest name

/-- Put an entry into every cache carrying this name (there is at most one). -/
def putInCaches : CacheStore → String → String → Response → CacheStore
  | [], _, _, _ => []
  | (n, c) :: rest, name, key, r =>
      if n = name then (n, cachePut c key r) :: putInCaches rest name key r
      else (n, c) :: putInCaches rest name key r

/-- `caches.open(name)` followed by `cache.put(key, r)` on the opened cache. -/
def storePut (store : CacheStore) (name key : String) (r : Response) : CacheStore :=
  putInCaches (openCache store name) name key r

/-- Replace the contents of every cache carrying this name. -/
def setCache : CacheStore → String → Cache → CacheStore
  | [], _, _ => []
  | (n, c) :: rest, name, c2 =>
      if n = name then (n, c2) :: setCache rest name c2
      else (n, c) :: setCache rest name c2

/-- Read the entry for `key` inside the cache named `name`. -/
def storeMatchIn (store : CacheStore) (name key : String) : Option Response :=
  (findCache store name).bind (fun c => cacheMatch c key)

/-- `caches.match(request)`: search every cache in creation order. -/
def cachesMatch : CacheStore → String → Option Response
  | [], _ => none
  | (_, c) :: rest, key =>
      match cacheMatch c key with
      | some r => some r
      | none => cachesMatch rest key

/-! ### Strategy router -/

inductive Strategy where
  | cacheFirst
  | networkFirst
  | cacheOnly
  | networkOnly
  | staleWhileRevalidate
deriving DecidableEq

/-- The request descriptor: method, full URL, and the URL's host and path
components together with the `accept` header (`none` when absent). -/
structure RequestDescriptor where
  method : String
  url : String
  hostname : String
  pathname : String
  accept : Option String

/-- Whether `pat` occurs as a contiguous sublist. -/
def listInfix (pat : List Char) : List Char → Bool
  | [] => pat.isEmpty
  | c :: rest => pat.isPrefixOf (c :: rest) || listInfix pat rest

/-- `s.includes(pat)` on JS strings. -/
def containsStr (s pat : String) : Bool := listInfix pat.data s.data

/-- Rule 1 of `getCacheStrategy`: analytics and tracking hosts/paths. -/
def isAnalytics (req : RequestDescriptor) : Bool :=
  containsStr req.hostname "google-analytics.com" ||
  containsStr req.hostname "googletagmanager.com" ||
  containsStr req.pathname "/analytics/"

/-- Rule 2 of `getCacheStrategy`: API-ish paths or JSON accept header. -/
def isApi (req : RequestDescriptor) : Bool :=
  containsStr req.pathname "/api/" ||
  containsStr req.pathname ".json" ||
  (match req.accept with
   | some a => containsStr a "application/json"
   | none => false)

def staticExtensions : List String :=
  ["css", "js", "png", "jpg", "jpeg", "gif", "svg", "woff", "woff2", "ttf", "eot"]

/-- The regex `\.(css|js|...|eot)$/i` applied to the pathname (the `/i`
flag is modelled by lowercasing the pathname characters first). -/
def hasStaticExtension (p : String) : Bool :=
  staticExtensions.any (fun e => ("." ++ e).data.isSuffixOf (p.data.map Char.toLower))

/-- Rule 3 of `getCacheStrategy`: static-asset extensions and font/CDN hosts. -/
def isStaticAsset (req : RequestDescriptor) : Bool :=
  hasStaticExtension req.pathname ||
  containsStr req.hostname "fonts.googleapis.com" ||
  containsStr req.hostname "fonts.gstatic.com" ||
  containsStr req.hostname "cdnjs.cloudflare.com"

/-- `getCacheStrategy(request)`: first matching rule wins, defaulting to
stale-while-revalidate for documents. -/
def getCacheStrategy (req : RequestDescriptor) : Strategy :=
  if isAnalytics req then .networkOnly
  else if isApi req then .networkFirst
  else if isStaticAsset req then .cacheFirst
  else .staleWhileRevalidate

/-- The fetch listener's gate: non-GET and non-http(s) requests bypass the
proxy (`return` without `respondWith`); eligible requests are dispatched on
`getCacheStrategy`. -/
def interceptStrategy (req : RequestDescriptor) : Option Strategy :=
  if req.method ≠ "GET" then none
  else if ¬ (req.url.startsWith "http") then none
  else some (getCacheStrategy req)

/-! ### Strategy executors -/

/-- `cacheFirst(request)`: answer from any cache; else fetch, write a 2xx
response through to the static cache; a rejected fetch yields the 503
sentinel. -/
def cacheFirst (store : CacheStore) (key : String) (net : Option Response) :
    Option Response × CacheStore :=
  match cachesMatch store key with
  | some c => (some c, store)
  | none =>
    match net with
    | some nr =>
        if nr.ok then (some nr, storePut store STATIC_CACHE key nr)
        else (some nr, store)
    | none => (some offlineResponse, store)

/-- `networkFirst(request)`: fetch; a 2xx response is written through to the
dynamic cache; a resolved non-2xx response is returned as-is; a rejected
fetch falls back to any cached entry, else the 503 sentinel. -/
def networkFirst (store : CacheStore) (key : String) (net : Option Response) :
    Option Response × CacheStore :=
  match net with
  | some nr =>
      if nr.ok then (some nr, storePut store DYNAMIC_CACHE key nr)
      else (some nr, store)
  | none =>
    match cachesMatch store key with
    | some c => (some c, store)
    | none => (some offlineResponse, store)

/-- `cacheOnly(request)`: cached entry or the 404 sentinel; never fetches. -/
def cacheOnly (store : CacheStore) (key : String) :
    Option Response × CacheStore :=
  match cachesMatch store key with
  | some c => (some c, store)
  | none => (some notFoundResponse, store)

/-- `networkOnly(request)`: `return fetch(request)`; a rejected fetch
surfaces (no response value). -/
def networkOnly (store : CacheStore) (_key : String) (net : Option Response) :
    Option Response × CacheStore :=
  (net, store)

/-- `staleWhileRevalidate(request)`: open the dynamic cache, read the key,
start the background fetch (which writes a 2xx response through and maps a
rejection to `null`), return the cached entry when present, otherwise the
network outcome. Since `networkResponsePromise` is a promise object and
hence always truthy, the `|| new Response('Offline', {status: 503})`
alternative is dead code: with no cached entry and a rejected fetch the
handler resolves with `null` (modelled `none`). -/
def staleWhileRevalidate (store : CacheStore) (key : String) (net : Option Response) :
    Option Response × CacheStore :=
  let store1 := openCache store DYNAMIC_CACHE
  let cached := storeMatchIn store1 DYNAMIC_CACHE key
  let store2 :=
    match net with
    | some nr => if nr.ok then storePut store1 DYNAMIC_CACHE key nr else store1
    | none => store1
  match cached with
  | some c => (some c, store2)
  | none => (net, store2)

/-- The fetch listener's dispatch on the chosen strategy. -/
def handleRequest (s : Strategy) (store : CacheStore) (key : String)
    (net : Option Response) : Option Response × CacheStore :=
  match s with
  | .cacheFirst => cacheFirst store key net
  | .networkFirst => networkFirst store key net
  | .cacheOnly => cacheOnly store key
  | .networkOnly => networkOnly store key net
  | .staleWhileRevalidate => staleWhileRevalidate store key net

/-! ### Lifecycle: install and activate -/

/-- Whether the fetch of a manifest URL fails for `cache.addAll` purposes:
the fetch rejects, or it resolves with a non-2xx response. -/
def fetchFails (fetch : String → Option Response) (u : String) : Bool :=
  match fetch u with
  | some r => !r.ok
  | none => true

/-- `cache.addAll(urls)`: atomic — when every URL fetches a 2xx response the
cache gains one entry per URL, otherwise the whole operation rejects and the
cache is left untouched (`none`). -/
def addAll (c : Cache) (urls : List String) (fetch : String → Option Response) :
    Option Cache :=
  match urls with
  | [] => some c
  | u :: rest =>
    match fetch u with
    | some r => if r.ok then addAll (cachePut c u r) rest fetch else none
    | none => none

/-- The install listener: `caches.open(STATIC_CACHE)` then
`cache.addAll(manifest)`; the trailing `.catch` swallows a failure, leaving
the (empty) static cache in place. -/
def install (store : CacheStore) (manifest : List String)
    (fetch : String → Option Response) : CacheStore :=
  let store1 := openCache store STATIC_CACHE
  match findCache store1 STATIC_CACHE with
  | some c =>
    match addAll c manifest fetch with
    | some c2 => setCache store1 STATIC_CACHE c2
    | none => store1
  | none => store1

/-- The install listener as wired in the source, with the built-in manifest. -/
def installListener (store : CacheStore) (fetch : String → Option Response) :
    CacheStore :=
  install store STATIC_ASSETS fetch

/-- The activate listener: delete every cache whose name is neither
`STATIC_CACHE` nor `DYNAMIC_CACHE`. -/
def activate : CacheStore → CacheStore
  | [] => []
  | (n, c) :: rest =>
      if n = STATIC_CACHE ∨ n = DYNAMIC_CACHE then (n, c) :: activate rest
      else activate rest

/-! ### Expiry sweep -/

/-- 7 days in milliseconds: `7 * 24 * 60 * 60 * 1000`. -/
def oneWeekMs : Int := 7 * 24 * 60 * 60 * 1000

/-- The body of the cleanup loop: delete an entry when it carries a date
header strictly older than the threshold; entries without a date header are
kept. -/
def sweep (weekAgo : Int) : Cache → Cache
  | [] => []
  | (k, r) :: rest =>
    match r.date with
    | some t =>
        if t < weekAgo then sweep weekAgo rest
        else (k, r) :: sweep weekAgo rest
    | none => (k, r) :: sweep weekAgo rest

/-- `cleanupCaches()` at time `now`: sweep the dynamic cache with the
threshold `Date.now() - 7*24*60*60*1000`. -/
def cleanupCaches (store : CacheStore) (now : Int) : CacheStore :=
  let store1 := openCache store DYNAMIC_CACHE
  match findCache store1 DYNAMIC_CACHE with
  | some c => setCache store1 DYNAMIC_CACHE (sweep (now - oneWeekMs) c)
  | none => store1

/-! ### Push notifications -/

/-- The parsed push payload (`event.data.json()`), per the payload schema. -/
structure PushPayload where
  title : String
  body : String
  tag : Option String
  requireInteraction : Option Bool
  url : Option String

/-- The `data` property a notification may carry; the click handler reads
`data?.url`. -/
structure NotificationData where
  url : Option String

/-- The options object built by the push listener: note that no `data`
field is set, so notifications shown by this listener carry no data. -/
structure NotificationOptions where
  body : String
  icon : String
  badge : String
  tag : String
  requireInteraction : Bool
  data : Option NotificationData

/-- A displayed notification (`registration.showNotification(title, options)`). -/
structure ShownNotification where
  title : String
  options : NotificationOptions

/-- The push listener: build the options from the payload and show the
notification. -/
def pushListener (p : PushPayload) : ShownNotification :=
  { title := p.title,
    options :=
      { body := p.body,
        icon := "/icon-192x192.png",
        badge := "/badge-72x72.png",
        tag := p.tag.getD "default",
        requireInteraction := p.requireInteraction.getD false,
        data := none } }

/-- The notificationclick listener: `clients.openWindow(event.notification.data?.url || '/')`. -/
def notificationClickUrl (n : ShownNotification) : String :=
  match n.options.data with
  | some d => d.url.getD "/"
  | none => "/"

/-! ### Basic lemmas about the cache operations -/

theorem cacheMatch_cachePut_self (c : Cache) (key : String) (r : Response) :
    cacheMatch (cachePut c key r) key = some r := by
  induction c with
  | nil => simp [cachePut, cacheMatch]
  | cons hd tl ih =>
    obtain ⟨k, v⟩ := hd
    by_cases h : k = key
    · simp [cachePut, h, cacheMatch]
    · simp [cachePut, h, cacheMatch, ih]

theorem cacheMatch_cachePut_ne (c : Cache) (key k : String) (r : Response)
    (h : k ≠ key) : cacheMatch (cachePut c key r) k = cacheMatch c k := by
  induction c with
  | nil => simp [cachePut, cacheMatch, Ne.symm h]
  | cons hd tl ih =>
    obtain ⟨k0, v⟩ := hd
    by_cases h0 : k0 = key
    · subst h0
      simp [cachePut, cacheMatch, Ne.symm h]
    · simp [cachePut, h0, cacheMatch, ih]

theorem cacheMatch_cachePut_isSome (c : Cache) (key k : String) (r : Response)
    (h : (cacheMatch c k).isSome = true) :
    (cacheMatch (cachePut c key r) k).isSome = true := by
  by_cases hk : k = key
  · subst hk; simp [cacheMatch_cachePut_self]
  · rw [cacheMatch_cachePut_ne c key k r hk]; exact h

theorem cachePut_length_absent (c : Cache) (key : String) (r : Response)
    (h : cacheMatch c key = none) :
    (cachePut c key r).length = c.length + 1 := by
  induction c with
  | nil => simp [cachePut]
  | cons hd tl ih =>
    obtain ⟨k0, v⟩ := hd
    by_cases h0 : k0 = key
    · simp [cacheMatch, h0] at h
    · simp [cacheMatch, h0] at h
      simp [cachePut, h0, ih h]

theorem findCache_openCache (store : CacheStore) (name n : String) :
    findCache (openCache store name) n =
      if n = name then some ((findCache store name).getD []) else findCache store n := by
  induction store with
  | nil =>
    by_cases h : n = name
    · simp [openCache, findCache, h]
    · simp [openCache, findCache, h, Ne.symm h]
  | cons hd tl ih =>
    obtain ⟨n0, c0⟩ := hd
    by_cases h0 : n0 = name
    · subst h0
      by_cases h : n = n0
      · simp [openCache, findCache, h]
      · simp [openCache, findCache, h, Ne.symm h]
    · by_cases h : n0 = n
      · subst h
        simp [openCache, findCache, h0, Ne.symm h0]
      · simp [openCache, findCache, h0, h, ih]

theorem findCache_putInCaches (store : CacheStore) (name key : String) (r : Response)
    (n : String) :
    findCache (putInCaches store name key r) n =
      if n = name then (findCache store n).map (fun c => cachePut c key r)
      else findCache store n := by
  induction store with
  | nil =>
    by_cases h : n = name <;> simp [putInCaches, findCache, h]
  | cons hd tl ih =>
    obtain ⟨n0, c0⟩ := hd
    by_cases h0 : n0 = name
    · subst h0
      by_cases h : n0 = n
      · subst h
        simp [putInCaches, findCache, ih]
      · simp [putInCaches, findCache, h, Ne.symm h, ih]
    · by_cases h : n0 = n
      · subst h
        simp [putInCaches, findCache, h0, ih, Ne.symm h0]
      · simp [putInCaches, findCache, h0, h, ih]

theorem findCache_setCache (store : CacheStore) (name : String) (c2 : Cache)
    (n : String) :
    findCache (setCache store name c2) n =
      if n = name then (findCache store n).map (fun _ => c2)
      else findCache store n := by
  induction store with
  | nil =>
    by_cases h : n = name <;> simp [setCache, findCache, h]
  | cons hd tl ih =>
    obtain ⟨n0, c0⟩ := hd
    by_cases h0 : n0 = name
    · subst h0
      by_cases h : n0 = n
      · subst h
        simp [setCache, findCache, ih]
      · simp [setCache, findCache, h, Ne.symm h, ih]
    · by_cases h : n0 = n
      · subst h
        simp [setCache, findCache, h0, ih, Ne.symm h0]
      · simp [setCache, findCache, h0, h, ih]

theorem storeMatchIn_openCache (store : CacheStore) (name n k : String) :
    storeMatchIn (openCache store name) n k = storeMatchIn store n k := by
  unfold storeMatchIn
  rw [findCache_openCache]
  by_cases h : n = name
  · subst h
    cases hf : findCache store n with
    | none => simp [cacheMatch]
    | some c => simp
  · simp [h]

theorem storeMatchIn_storePut (store : CacheStore) (name key : String) (r : Response)
    (n k : String) :
    storeMatchIn (storePut store name key r) n k =
      if n = name ∧ k = key then some r else storeMatchIn store n k := by
  unfold storePut storeMatchIn
  rw [findCache_putInCaches, findCache_openCache]
  by_cases hn : n = name
  · subst hn
    cases hf : findCache store n with
    | none =>
      by_cases hk : k = key
      · subst hk; simp [cacheMatch_cachePut_self]
      · simp [hk, cacheMatch_cachePut_ne _ _ _ _ hk, cacheMatch, Ne.symm hk]
    | some c =>
      by_cases hk : k = key
      · subst hk; simp [cacheMatch_cachePut_self]
      · simp [hk, cacheMatch_cachePut_ne _ _ _ _ hk]
  · simp [hn]

theorem cacheMatch_none_of_cachesMatch_none (store : CacheStore) (key : String)
    (h : cachesMatch store key = none) (n : String) (c : Cache)
    (hf : findCache store n = some c) : cacheMatch c key = none := by
  induction store with
  | nil => simp [findCache] at hf
  | cons hd tl ih =>
    obtain ⟨n0, c0⟩ := hd
    have h0 : cacheMatch c0 key = none := by
      cases hm : cacheMatch c0 key with
      | none => rfl
      | some r => simp [cachesMatch, hm] at h
    have htl : cachesMatch tl key = none := by
      simpa [cachesMatch, h0] using h
    by_cases hn : n0 = n
    · simp [findCache, hn] at hf
      subst hf
      exact h0
    · simp [findCache, hn] at hf
      exact ih htl hf

theorem cachesMatch_storePut_self (store : CacheStore) (name key : String)
    (r : Response) (h : cachesMatch store key = none) :
    cachesMatch (storePut store name key r) key = some r := by
  unfold storePut
  induction store with
  | nil =>
    by_cases hn : name = name <;>
      simp [openCache, putInCaches, cachesMatch, cacheMatch_cachePut_self]
  | cons hd tl ih =>
    obtain ⟨n0, c0⟩ := hd
    have h0 : cacheMatch c0 key = none := by
      cases hm : cacheMatch c0 key with
      | none => rfl
      | some r0 => simp [cachesMatch, hm] at h
    have htl : cachesMatch tl key = none := by
      simpa [cachesMatch, h0] using h
    by_cases hn : n0 = name
    · simp [openCache, hn, putInCaches, cachesMatch, cacheMatch_cachePut_self]
    · simp [openCache, hn, putInCaches, cachesMatch, h0, ih htl]

theorem storePut_entry_cases (store : CacheStore) (ns key : String) (nr : Response)
    (name k : String) :
    storeMatchIn (storePut store ns key nr) name k = storeMatchIn store name k ∨
    (k = key ∧ storeMatchIn (storePut store ns key nr) name k = some nr) := by
  rw [storeMatchIn_storePut]
  by_cases h : name = ns ∧ k = key
  · right
    exact ⟨h.2, by simp [h]⟩
  · left
    simp [h]

theorem swr_store (store : CacheStore) (key : String) (net : Option Response) :
    (staleWhileRevalidate store key net).2 =
      match net with
      | some nr =>
          if nr.ok then storePut (openCache store DYNAMIC_CACHE) DYNAMIC_CACHE key nr
          else openCache store DYNAMIC_CACHE
      | none => openCache store DYNAMIC_CACHE := by
  cases h : storeMatchIn (openCache store DYNAMIC_CACHE) DYNAMIC_CACHE key <;>
    cases net <;> simp [staleWhileRevalidate, h]

theorem hasCache_activate (store : CacheStore) (name : String) :
    hasCache (activate store) name =
      (hasCache store name && decide (name = STATIC_CACHE ∨ name = DYNAMIC_CACHE)) := by
  induction store with
  | nil => simp [activate, hasCache, findCache]
  | cons hd tl ih =>
    obtain ⟨n0, c0⟩ := hd
    by_cases hcur : n0 = STATIC_CACHE ∨ n0 = DYNAMIC_CACHE
    · by_cases hn : n0 = name
      · subst hn
        simp [activate, hcur, hasCache, findCache]
      · rw [show activate ((n0, c0) :: tl) = (n0, c0) :: activate tl from by
            simp [activate, hcur]]
        simp only [hasCache, findCache, if_neg hn]
        exact ih
    · have hact : activate ((n0, c0) :: tl) = activate tl := by
        simp [activate, hcur]
      by_cases hn : n0 = name
      · subst hn
        have hdec : decide (n0 = STATIC_CACHE ∨ n0 = DYNAMIC_CACHE) = false := by
          simp [hcur]
        rw [hact, ih, hdec]
        simp
      · rw [hact, ih]
        simp only [hasCache, findCache, if_neg hn]

theorem cacheMatch_eq_none_of_not_mem (c : Cache) (k : String)
    (h : k ∉ c.map Prod.fst) : cacheMatch c k = none := by
  induction c with
  | nil => rfl
  | cons head tl ih =>
    obtain ⟨k0, v⟩ := head
    have h1 : k ≠ k0 := by
      intro he
      exact h (by simp [he])
    have h2 : k ∉ tl.map Prod.fst := by
      intro hm
      exact h (by simp [hm])
    simp [cacheMatch, Ne.symm h1, ih h2]

theorem cacheMatch_sweep_none (w : Int) (c : Cache) (key : String)
    (h : cacheMatch c key = none) : cacheMatch (sweep w c) key = none := by
  induction c with
  | nil => simp [sweep, cacheMatch]
  | cons head tl ih =>
    obtain ⟨k0, r0⟩ := head
    by_cases hk : k0 = key
    · simp [cacheMatch, hk] at h
    · simp [cacheMatch, hk] at h
      cases hdate : r0.date with
      | none => simp [sweep, hdate, cacheMatch, hk, ih h]
      | some t =>
        by_cases ht : t < w
        · simp [sweep, hdate, ht, ih h]
        · simp [sweep, hdate, ht, cacheMatch, hk, ih h]

theorem cacheMatch_sweep (w : Int) (c : Cache) (key : String) (r : Response)
    (hnd : (c.map Prod.fst).Nodup) (h : cacheMatch c key = some r) :
    cacheMatch (sweep w c) key =
      match r.date with
      | some t => if t < w then none else some r
      | none => some r := by
  induction c with
  | nil => simp [cacheMatch] at h
  | cons head tl ih =>
    obtain ⟨k0, r0⟩ := head
    simp only [List.map_cons, List.nodup_cons] at hnd
    by_cases hk : k0 = key
    · subst hk
      simp [cacheMatch] at h
      subst h
      have htl : cacheMatch tl k0 = none :=
        cacheMatch_eq_none_of_not_mem tl k0 hnd.1
      cases hdate : r0.date with
      | none => simp [sweep, hdate, cacheMatch]
      | some t =>
        by_cases ht : t < w
        · simp [sweep, hdate, ht, cacheMatch_sweep_none w tl k0 htl]
        · simp [sweep, hdate, ht, cacheMatch]

    · simp [cacheMatch, hk] at h
      have := ih hnd.2 h
      cases hdate : r0.date with
      | none => simpa [sweep, hdate, cacheMatch, hk] using this
      | some t =>
        by_cases ht : t < w
        · simpa [sweep, hdate, ht] using this
        · simpa [sweep, hdate, ht, cacheMatch, hk] using this

theorem addAll_fails (c : Cache) (urls : List String)
    (fetch : String → Option Response) (u : String) (hu : u ∈ urls)
    (hf : fetchFails fetch u = true) : addAll c urls fetch = none := by
  induction urls generalizing c with
  | nil => simp at hu
  | cons u0 rest ih =>
    rcases List.mem_cons.mp hu with h | h
    · unfold fetchFails at hf
      rw [h] at hf
      cases hfu : fetch u0 with
      | none => simp [addAll, hfu]
      | some r =>
        rw [hfu] at hf
        simp at hf
        simp [addAll, hfu, hf]
    · unfold addAll
      cases hfu : fetch u0 with
      | none => rfl
      | some r =>
        by_cases hok : r.ok = true
        · simp [hok, ih _ h]
        · simp [hok]

theorem addAll_ok (urls : List String) (fetch : String → Option Response)
    (c : Cache) (hnd : urls.Nodup)
    (hfetch : ∀ u ∈ urls, fetchFails fetch u = false)
    (habs : ∀ u ∈ urls, cacheMatch c u = none) :
    ∃ c2, addAll c urls fetch = some c2 ∧
      c2.length = c.length + urls.length ∧
      (∀ u ∈ urls, (cacheMatch c2 u).isSome = true) ∧
      (∀ k, (cacheMatch c k).isSome = true → (cacheMatch c2 k).isSome = true) := by
  induction urls generalizing c with
  | nil => exact ⟨c, rfl, by simp, by simp, fun k h => h⟩
  | cons u0 rest ih =>
    have hf0 := hfetch u0 (by simp)
    cases hfu : fetch u0 with
    | none => simp [fetchFails, hfu] at hf0
    | some r =>
      have hok : r.ok = true := by
        unfold fetchFails at hf0
        rw [hfu] at hf0
        simpa using hf0
      have habs0 : cacheMatch c u0 = none := habs u0 (by simp)
      have hnodup := List.nodup_cons.mp hnd
      have habs2 : ∀ u ∈ rest, cacheMatch (cachePut c u0 r) u = none := by
        intro u hu
        have hne : u ≠ u0 := fun he => hnodup.1 (he ▸ hu)
        rw [cacheMatch_cachePut_ne c u0 u r hne]
        exact habs u (by simp [hu])
      obtain ⟨c2, hc2, hlen, hmem, hpres⟩ := ih (cachePut c u0 r) hnodup.2
        (fun u hu => hfetch u (by simp [hu])) habs2
      refine ⟨c2, ?_, ?_, ?_, ?_⟩
      · unfold addAll
        simp [hfu, hok, hc2]
      · rw [hlen, cachePut_length_absent c u0 r habs0]
        simp [List.length_cons]
        omega
      · intro u hu
        rcases List.mem_cons.mp hu with h | h
        · rw [h]
          exact hpres u0 (by simp [cacheMatch_cachePut_self])
        · exact hmem u h
      · intro k hk
        exact hpres k (cacheMatch_cachePut_isSome c u0 k r hk)

/-! ### Concrete responses and requests used by the witnesses -/

def rStale : Response := { status := 200, body := "stale", date := none }

def rFresh : Response := { status := 200, body := "fresh", date := none }

def rServerError : Response := { status := 500, body := "server error", date := none }

def docsPayload : PushPayload :=
  { title := "T", body := "B", tag := none, requireInteraction := none,
    url := some "/docs" }

def plainPayload : PushPayload :=
  { title := "T", body := "B", tag := none, requireInteraction := none,
    url := none }

def overlapReq : RequestDescriptor :=
  { method := "GET",
    url := "https://cdnjs.cloudflare.com/ajax/libs/data.json",
    hostname := "cdnjs.cloudflare.com",
    pathname := "/ajax/libs/data.json",
    accept := none }

/-! ### The claims -/

/-- Claim C1: for a StaleWhileRevalidate request whose key has a cached
entry in the dynamic cache, the handler returns that cached entry whatever
the network fetch does (so the caller does not wait on it), and when the
background refresh resolves with a 2xx response the dynamic cache
afterwards holds that network response for the key. -/
theorem claim_C1_swr_stale_then_refresh (store : CacheStore) (key : String)
    (c : Response) (hc : storeMatchIn store DYNAMIC_CACHE key = some c) :
    (∀ net, (staleWhileRevalidate store key net).1 = some c) ∧
    (∀ nr : Response, nr.ok = true →
      storeMatchIn (staleWhileRevalidate store key (some nr)).2
        DYNAMIC_CACHE key = some nr) := by
  have hc1 : storeMatchIn (openCache store DYNAMIC_CACHE) DYNAMIC_CACHE key = some c :=
    (storeMatchIn_openCache store DYNAMIC_CACHE DYNAMIC_CACHE key).trans hc
  constructor
  · intro net
    cases net with
    | none => simp [staleWhileRevalidate, hc1]
    | some nr =>
      by_cases hok : nr.ok = true <;> simp [staleWhileRevalidate, hc1, hok]
  · intro nr hok
    simp [staleWhileRevalidate, hc1, hok, storeMatchIn_storePut]

theorem claim_C1_witness :
    storeMatchIn [(DYNAMIC_CACHE, [("/page", rStale)])] DYNAMIC_CACHE "/page" = some rStale ∧
    (staleWhileRevalidate [(DYNAMIC_CACHE, [("/page", rStale)])] "/page" (some rFresh)).1 =
      some rStale ∧
    storeMatchIn (staleWhileRevalidate [(DYNAMIC_CACHE, [("/page", rStale)])] "/page"
        (some rFresh)).2 DYNAMIC_CACHE "/page" = some rFresh := by
  have h := claim_C1_swr_stale_then_refresh [(DYNAMIC_CACHE, [("/page", rStale)])]
    "/page" rStale (by decide)
  exact ⟨by decide, h.1 (some rFresh), h.2 rFresh (by decide)⟩

/-- Claim C2 (code bug): on exhausted fallbacks (no cached entry, rejected
fetch), CacheFirst and NetworkFirst do synthesize the 503 sentinel, but
StaleWhileRevalidate resolves with `null` (no response value at all):
`networkResponsePromise || new Response('Offline', {status: 503})` always
takes the left branch because a promise object is truthy, so the
`respondWith` promise resolves with `null` and the request fails with a
network error instead of the claimed 503. -/
theorem claim_C2_swr_resolves_null_not_503 :
    cacheFirst [] "/page" none = (some offlineResponse, []) ∧
    networkFirst [] "/page" none = (some offlineResponse, []) ∧
    (staleWhileRevalidate [] "/page" none).1 = none ∧
    decide ((staleWhileRevalidate [] "/page" none).1 = some offlineResponse) = false := by
  refine ⟨by decide, by decide, by decide, by decide⟩

/-- Claim C3: the strategy router is a pure total Lean function of the
request descriptor, and on every eligible GET request the decision follows
the first matching rule in the fixed order analytics → NetworkOnly, then
API/JSON → NetworkFirst, then static asset → CacheFirst, then the
StaleWhileRevalidate default; a request matching an earlier and a later
rule takes the earlier rule's strategy. -/
theorem claim_C3_classify_first_match (req : RequestDescriptor) :
    (req.method = "GET" → req.url.startsWith "http" = true →
      interceptStrategy req = some (getCacheStrategy req)) ∧
    (isAnalytics req = true → getCacheStrategy req = .networkOnly) ∧
    (isAnalytics req = false → isApi req = true →
      getCacheStrategy req = .networkFirst) ∧
    (isAnalytics req = false → isApi req = false → isStaticAsset req = true →
      getCacheStrategy req = .cacheFirst) ∧
    (isAnalytics req = false → isApi req = false → isStaticAsset req = false →
      getCacheStrategy req = .staleWhileRevalidate) := by
  refine ⟨?_, ?_, ?_, ?_, ?_⟩ <;> intros <;>
    simp_all [interceptStrategy, getCacheStrategy]

theorem claim_C3_witness :
    isAnalytics overlapReq = false ∧ isApi overlapReq = true ∧
    isStaticAsset overlapReq = true ∧
    getCacheStrategy overlapReq = .networkFirst :=
  ⟨by decide, by decide, by decide,
    (claim_C3_classify_first_match overlapReq).2.2.1 (by decide) (by decide)⟩

/-- Claim C5: after activate, a cache that existed before persists iff its
name is one of the current version tags (`STATIC_CACHE` or
`DYNAMIC_CACHE`); activate on an empty store (first run) succeeds and
leaves it empty. -/
theorem claim_C5_activate_reclaims :
    activate ([] : CacheStore) = [] ∧
    ∀ (store : CacheStore) (name : String), hasCache store name = true →
      (hasCache (activate store) name = true ↔
        (name = STATIC_CACHE ∨ name = DYNAMIC_CACHE)) := by
  refine ⟨rfl, ?_⟩
  intro store name h
  rw [hasCache_activate, h]
  simp

theorem claim_C5_witness :
    hasCache [(CACHE_NAME, []), (STATIC_CACHE, ([] : Cache))] CACHE_NAME = true ∧
    (hasCache (activate [(CACHE_NAME, []), (STATIC_CACHE, ([] : Cache))]) CACHE_NAME = true ↔
      (CACHE_NAME = STATIC_CACHE ∨ CACHE_NAME = DYNAMIC_CACHE)) :=
  ⟨by decide,
    claim_C5_activate_reclaims.2 [(CACHE_NAME, []), (STATIC_CACHE, [])] CACHE_NAME (by decide)⟩

/-- Claim C9 (code bug): the push listener builds the notification options
without a `data` field, so `event.notification.data?.url` is always absent
and a click on a notification shown for a payload carrying a URL still
navigates to "/" instead of that URL. -/
theorem claim_C9_click_ignores_payload_url :
    docsPayload.url = some "/docs" ∧
    (pushListener docsPayload).options.data = none ∧
    notificationClickUrl (pushListener docsPayload) = "/" ∧
    notificationClickUrl (pushListener plainPayload) = "/" :=
  ⟨rfl, rfl, rfl, rfl⟩

/-- Claim C10: a NetworkFirst fetch that resolves with a non-2xx response
returns that response unmodified: no cache namespace is touched and no
fallback to a previously cached entry happens (the catch branch only runs
when the fetch rejects). -/
theorem claim_C10_networkFirst_non_ok (store : CacheStore) (key : String)
    (nr : Response) (h : nr.ok = false) :
    networkFirst store key (some nr) = (some nr, store) := by
  simp [networkFirst, h]

theorem claim_C10_witness :
    Response.ok rServerError = false ∧
    networkFirst [(DYNAMIC_CACHE, [("/data.json", rStale)])] "/data.json"
        (some rServerError) =
      (some rServerError, [(DYNAMIC_CACHE, [("/data.json", rStale)])]) :=
  ⟨by decide,
    claim_C10_networkFirst_non_ok [(DYNAMIC_CACHE, [("/data.json", rStale)])]
      "/data.json" rServerError (by decide)⟩

/-- Claim C4: whatever the strategy, every entry of every cache namespace is
either exactly what it was before the request, or (only at the request's own
key) the fetched network response — and the latter only when that response
resolved with a 2xx status. Non-2xx responses are returned without being
persisted anywhere. -/
theorem claim_C4_writes_only_ok (s : Strategy) (store : CacheStore)
    (key : String) (net : Option Response) (name k : String) :
    storeMatchIn (handleRequest s store key net).2 name k = storeMatchIn store name k ∨
    (∃ nr, net = some nr ∧ nr.ok = true ∧ k = key ∧
      storeMatchIn (handleRequest s store key net).2 name k = some nr) := by
  cases s
  case cacheFirst =>
    cases hm : cachesMatch store key with
    | some c => left; simp [handleRequest, cacheFirst, hm]
    | none =>
      cases net with
      | none => left; simp [handleRequest, cacheFirst, hm]
      | some nr =>
        by_cases hok : nr.ok = true
        · rcases storePut_entry_cases store STATIC_CACHE key nr name k with h | ⟨hk, h⟩
          · left
            simpa [handleRequest, cacheFirst, hm, hok] using h
          · right
            exact ⟨nr, rfl, hok, hk, by simpa [handleRequest, cacheFirst, hm, hok] using h⟩
        · left; simp [handleRequest, cacheFirst, hm, hok]
  case networkFirst =>
    cases net with
    | none =>
      cases hm : cachesMatch store key with
      | some c => left; simp [handleRequest, networkFirst, hm]
      | none => left; simp [handleRequest, networkFirst, hm]
    | some nr =>
      by_cases hok : nr.ok = true
      · rcases storePut_entry_cases store DYNAMIC_CACHE key nr name k with h | ⟨hk, h⟩
        · left
          simpa [handleRequest, networkFirst, hok] using h
        · right
          exact ⟨nr, rfl, hok, hk, by simpa [handleRequest, networkFirst, hok] using h⟩
      · left; simp [handleRequest, networkFirst, hok]
  case cacheOnly =>
    cases hm : cachesMatch store key with
    | some c => left; simp [handleRequest, cacheOnly, hm]
    | none => left; simp [handleRequest, cacheOnly, hm]
  case networkOnly =>
    left; simp [handleRequest, networkOnly]
  case staleWhileRevalidate =>
    have hs : (handleRequest .staleWhileRevalidate store key net).2 =
        (staleWhileRevalidate store key net).2 := rfl
    rw [hs, swr_store]
    cases net with
    | none => left; exact storeMatchIn_openCache store DYNAMIC_CACHE name k
    | some nr =>
      by_cases hok : nr.ok = true
      · simp only [hok, if_true]
        rcases storePut_entry_cases (openCache store DYNAMIC_CACHE) DYNAMIC_CACHE key
            nr name k with h | ⟨hk, h⟩
        · left
          rw [h, storeMatchIn_openCache]
        · right
          exact ⟨nr, rfl, hok, hk, h⟩
      · simp only [hok, if_false]
        left
        exact storeMatchIn_openCache store DYNAMIC_CACHE name k

theorem claim_C4_witness :
    storeMatchIn (handleRequest .networkFirst [] "/a" (some rFresh)).2
        DYNAMIC_CACHE "/a" = storeMatchIn [] DYNAMIC_CACHE "/a" ∨
    (∃ nr, some rFresh = some nr ∧ nr.ok = true ∧ "/a" = "/a" ∧
      storeMatchIn (handleRequest .networkFirst [] "/a" (some rFresh)).2
        DYNAMIC_CACHE "/a" = some nr) :=
  claim_C4_writes_only_ok .networkFirst [] "/a" (some rFresh) DYNAMIC_CACHE "/a"

/-- Claim C6: install is atomic. Starting from a fresh store, when every
manifest URL fetches successfully the static cache holds exactly one entry
per manifest URL; when any single manifest fetch fails, `cache.addAll`
rejects as a whole and the static cache holds 0 entries. -/
theorem claim_C6_install_atomic (manifest : List String)
    (fetch : String → Option Response) (hnd : manifest.Nodup) :
    ((∀ u ∈ manifest, fetchFails fetch u = false) →
      ∃ c, findCache (install [] manifest fetch) STATIC_CACHE = some c ∧
        c.length = manifest.length ∧
        ∀ u ∈ manifest, (cacheMatch c u).isSome = true) ∧
    ((∃ u ∈ manifest, fetchFails fetch u = true) →
      findCache (install [] manifest fetch) STATIC_CACHE = some []) := by
  constructor
  · intro hall
    obtain ⟨c2, hc2, hlen, hmem, _⟩ :=
      addAll_ok manifest fetch [] hnd hall (fun u _ => rfl)
    refine ⟨c2, ?_, by simpa using hlen, hmem⟩
    simp [install, openCache, findCache, hc2, setCache]
  · rintro ⟨u, hu, hf⟩
    simp [install, openCache, findCache, addAll_fails [] manifest fetch u hu hf]

def okFetch : String → Option Response :=
  fun u => some { status := 200, body := u, date := none }

def failFetch : String → Option Response :=
  fun u => if u = "/app.css" then none else okFetch u

theorem claim_C6_witness :
    (∃ c, findCache (install [] ["/", "/app.css"] okFetch) STATIC_CACHE = some c ∧
      c.length = 2 ∧ ∀ u ∈ ["/", "/app.css"], (cacheMatch c u).isSome = true) ∧
    findCache (install [] ["/", "/app.css"] failFetch) STATIC_CACHE = some [] :=
  ⟨(claim_C6_install_atomic ["/", "/app.css"] okFetch (by decide)).1 (fun u _ => rfl),
   (claim_C6_install_atomic ["/", "/app.css"] failFetch (by decide)).2
     ⟨"/app.css", by decide, by decide⟩⟩

/-- Claim C7: one run of the expiry sweep over the dynamic cache deletes
exactly the entries whose date header is strictly older than now − 7 days:
an entry with capture timestamp `t` is absent afterwards iff
`t < now − 7·24·60·60·1000`, and is kept unchanged otherwise. -/
theorem claim_C7_cleanup_exact (store : CacheStore) (now t : Int)
    (key : String) (r : Response) (c : Cache)
    (hc : findCache store DYNAMIC_CACHE = some c)
    (hnd : (c.map Prod.fst).Nodup)
    (hr : cacheMatch c key = some r) (ht : r.date = some t) :
    storeMatchIn (cleanupCaches store now) DYNAMIC_CACHE key =
      if t < now - oneWeekMs then none else some r := by
  have h1 : findCache (openCache store DYNAMIC_CACHE) DYNAMIC_CACHE = some c := by
    rw [findCache_openCache]
    simp [hc]
  have hsweep := cacheMatch_sweep (now - oneWeekMs) c key r hnd hr
  rw [ht] at hsweep
  unfold cleanupCaches
  simp only [h1]
  unfold storeMatchIn
  rw [findCache_setCache]
  simp only [if_pos rfl, h1, Option.map_some, Option.bind_some]
  exact hsweep

def sweepCacheEntries : Cache :=
  [("/old", { status := 200, body := "old", date := some 604799000 }),
   ("/at", { status := 200, body := "at", date := some 604800000 }),
   ("/new", { status := 200, body := "new", date := some 604801000 })]

def sweepStore : CacheStore := [(DYNAMIC_CACHE, sweepCacheEntries)]

theorem claim_C7_witness :
    storeMatchIn (cleanupCaches sweepStore 1209600000) DYNAMIC_CACHE "/old" =
      (if (604799000 : Int) < 1209600000 - oneWeekMs then none
       else some { status := 200, body := "old", date := some 604799000 }) :=
  claim_C7_cleanup_exact sweepStore 1209600000 604799000 "/old"
    { status := 200, body := "old", date := some 604799000 } sweepCacheEntries
    (by decide) (by decide) (by decide) rfl

/-- Claim C8 counterexample: the claim says CacheFirst "reads the static
namespace first and, on a miss, fetches from the network and writes a 2xx
response through to the static namespace". But `cacheFirst` uses
`caches.match`, which searches every namespace: with the key present only
in the dynamic cache (no static cache at all) and a fresh 2xx network
response available, the executor returns the dynamic entry and performs no
fetch and no static write-through. -/
theorem claim_C8_counterexample :
    findCache [(DYNAMIC_CACHE, [("/page", rStale)])] STATIC_CACHE = none ∧
    Response.ok rFresh = true ∧
    cacheFirst [(DYNAMIC_CACHE, [("/page", rStale)])] "/page" (some rFresh) =
      (some rStale, [(DYNAMIC_CACHE, [("/page", rStale)])]) ∧
    decide (rStale = rFresh) = false := by
  refine ⟨by decide, by decide, by decide, by decide⟩

/-- Claim C8 (amended): CacheFirst consults the caches (every namespace, in
creation order) first and, on a hit anywhere, returns the cached entry
without any network call; on a miss everywhere it fetches from the network
and writes a 2xx response through to the static namespace, so a subsequent
identical request returns the cached body without a network call; on
network failure with no cached entry it returns the sentinel 503
response. -/
theorem claim_C8_cacheFirst_amended (store : CacheStore) (key : String)
    (net : Option Response) :
    (∀ c, cachesMatch store key = some c → cacheFirst store key net = (some c, store)) ∧
    (cachesMatch store key = none → ∀ nr, net = some nr → nr.ok = true →
      cacheFirst store key net = (some nr, storePut store STATIC_CACHE key nr) ∧
      cachesMatch (storePut store STATIC_CACHE key nr) key = some nr ∧
      ∀ net2, cacheFirst (storePut store STATIC_CACHE key nr) key net2 =
        (some nr, storePut store STATIC_CACHE key nr)) ∧
    (cachesMatch store key = none → net = none →
      cacheFirst store key net = (some offlineResponse, store)) := by
  refine ⟨?_, ?_, ?_⟩
  · intro c hc
    simp [cacheFirst, hc]
  · intro hm nr hnet hok
    subst hnet
    have hput := cachesMatch_storePut_self store STATIC_CACHE key nr hm
    refine ⟨by simp [cacheFirst, hm, hok], hput, ?_⟩
    intro net2
    simp [cacheFirst, hput]
  · intro hm hnet
    subst hnet
    simp [cacheFirst, hm]

theorem claim_C8_witness :
    cachesMatch ([] : CacheStore) "/page" = none ∧
    cacheFirst [] "/page" (some rFresh) =
      (some rFresh, storePut [] STATIC_CACHE "/page" rFresh) ∧
    cacheFirst (storePut [] STATIC_CACHE "/page" rFresh) "/page" none =
      (some rFresh, storePut [] STATIC_CACHE "/page" rFresh) :=
  ⟨rfl,
   ((claim_C8_cacheFirst_amended [] "/page" (some rFresh)).2.1 rfl rFresh rfl (by decide)).1,
   ((claim_C8_cacheFirst_amended [] "/page" (some rFresh)).2.1 rfl rFresh rfl (by decide)).2.2 none⟩

end SW
